import Mathlib

/-!
Verification development for the go-toggl client library.

This file gives a shallow embedding of the parts of main.go that the
checked properties are about: the resource URL builders, the TimeEntry
record and its derived helpers, the two-format timestamp decoder, and
the session operations ContinueTimeEntry and UnstopTimeEntry, modelled
over an oracle for the HTTP transport and a request log recording which
requests an operation issues.
-/

namespace Toggl

/-- Instants are modelled as integer nanoseconds since the Unix epoch,
matching the precision of the Go time.Time values used in main.go.
Go int64 overflow is not modelled; none of the checked properties
exercises it. -/
abbrev Time := Int

def nsPerSecond : Int := 1000000000

/-- Unix seconds of an instant, flooring, as Go time.Time.Unix does
(the seconds field of a time with 0 <= nsec < 1e9). -/
def unixSeconds (t : Time) : Int := Int.fdiv t nsPerSecond

/-- resourceType enumeration (main.go lines 27-34). -/
inductive resourceType where
  | clients
  | projects
  | tags
  | timeEntries
  deriving DecidableEq, Repr

/-- The String method of resourceType: lookup in resourceTypeMap
(main.go lines 36-45); every constructor is a key of the map. -/
def resourceTypeString : resourceType → String
  | .clients => "clients"
  | .projects => "projects"
  | .tags => "tags"
  | .timeEntries => "time_entries"

/-- generateUserResourceURL (main.go line 47): Sprintf of /me/ and the
resource name. -/
def generateUserResourceURL (r : resourceType) : String :=
  "/me/" ++ resourceTypeString r

/-- generateResourceURL (main.go line 51): Sprintf substituting the
workspace id into /workspaces/%d/ followed by the resource name.
%d on a Go int prints a decimal with a leading minus sign for negative
values, which is what toString on Int produces. -/
def generateResourceURL (r : resourceType) (wid : Int) : String :=
  "/workspaces/" ++ toString wid ++ "/" ++ resourceTypeString r

/-- generateResourceURLWithID (main.go line 55). -/
def generateResourceURLWithID (r : resourceType) (wid : Int) (id : Int) : String :=
  generateResourceURL r wid ++ "/" ++ toString id

/-- TimeEntry record (main.go lines 140-152).  Pointer-typed fields of
the Go struct become Option; the defaults are the Go zero values. -/
structure TimeEntry where
  Wid : Int := 0
  ID : Int := 0
  Pid : Option Int := none
  Tid : Option Int := none
  Description : String := ""
  Stop : Option Time := none
  Start : Option Time := none
  Tags : List String := []
  Duration : Int := 0
  DurOnly : Bool := false
  Billable : Bool := false
  deriving DecidableEq, Repr

/-- The Go zero value of TimeEntry, produced by handleTimeEntryResponse
on any error path. -/
def zeroTimeEntry : TimeEntry := {}

/-- IsRunning (main.go lines 482-485). -/
def TimeEntry.IsRunning (e : TimeEntry) : Bool := e.Duration < 0

/-- Outcome of a Go method call that may hit a nil-pointer dereference:
either the call panics or it returns a value. -/
inductive Exec (α : Type) where
  | nilDeref
  | ok (val : α)
  deriving DecidableEq, Repr

/-- indexOfTag loop body (main.go lines 747-754): the range loop over
tags with iteration index i. -/
def indexOfTagAux (tag : String) : List String → Int → Int
  | [], _ => -1
  | t :: ts, i => if t = tag then i else indexOfTagAux tag ts (i + 1)

/-- indexOfTag (main.go lines 747-754). -/
def indexOfTag (tag : String) (tags : List String) : Int :=
  indexOfTagAux tag tags 0

/-- RemoveTag (main.go lines 697-702): when the tag is found at index i,
the tag sequence becomes the slice expression append of Tags up to i and
Tags from i+1 on; otherwise the entry is untouched. -/
def TimeEntry.RemoveTag (e : TimeEntry) (tag : String) : TimeEntry :=
  let i := indexOfTag tag e.Tags
  if i ≠ -1 then
    { e with Tags := e.Tags.take i.toNat ++ e.Tags.drop (i.toNat + 1) }
  else e

/-- SetDuration (main.go lines 704-717).  On a running entry it returns
the precondition error without touching the entry.  Otherwise it stores
the duration and recomputes Stop as Start.Add(duration seconds); the
dereference of the Start pointer panics when Start is nil. -/
def TimeEntry.SetDuration (e : TimeEntry) (duration : Int) :
    Exec (TimeEntry × Option String) :=
  if e.IsRunning then .ok (e, some "TimeEntry must be stopped")
  else
    match e.Start with
    | none => .nilDeref
    | some st =>
      .ok ({ e with Duration := duration,
                    Stop := some (st + duration * nsPerSecond) }, none)

/-- SetStartTime (main.go lines 719-732).  The start pointer is replaced
first; on a stopped entry, updateEnd true recomputes Stop from the new
start plus the duration, updateEnd false recomputes Duration as the Unix
difference of Stop and the new start, dereferencing the Stop pointer. -/
def TimeEntry.SetStartTime (e : TimeEntry) (start : Time) (updateEnd : Bool) :
    Exec TimeEntry :=
  let e1 := { e with Start := some start }
  if ¬ e1.IsRunning then
    if updateEnd then
      .ok { e1 with Stop := some (start + e1.Duration * nsPerSecond) }
    else
      match e1.Stop with
      | none => .nilDeref
      | some stp =>
        .ok { e1 with Duration := unixSeconds stp - unixSeconds start }
  else .ok e1

/-- SetStopTime (main.go lines 734-745).  On a running entry it returns
the precondition error without touching the entry; otherwise it stores
the stop time and recomputes Duration as the truncating division of the
nanosecond difference by one second, dereferencing the Start pointer. -/
def TimeEntry.SetStopTime (e : TimeEntry) (stop : Time) :
    Exec (TimeEntry × Option String) :=
  if e.IsRunning then .ok (e, some "TimeEntry must be stopped")
  else
    match e.Start with
    | none => .nilDeref
    | some st =>
      .ok ({ e with Stop := some stop,
                    Duration := Int.tdiv (stop - st) nsPerSecond }, none)

/-- Decimal value of an ASCII digit character. -/
def digitVal (c : Char) : Nat := c.toNat - 48

/-- Go getnum with fixed set, used for the zero-padded fields 01, 02,
04 and 05: exactly two digits (a single digit followed by a non-digit
is an error). -/
def getnum2 : List Char → Option (Nat × List Char)
  | a :: b :: rest =>
    if a.isDigit ∧ b.isDigit then some (10 * digitVal a + digitVal b, rest)
    else none
  | _ => none

/-- Go getnum with fixed unset, used for the stdHour field 15: one
digit, or two when a second digit follows. -/
def getnum1or2 : List Char → Option (Nat × List Char)
  | a :: b :: rest =>
    if a.isDigit then
      if b.isDigit then some (10 * digitVal a + digitVal b, rest)
      else some (digitVal a, b :: rest)
    else none
  | [a] => if a.isDigit then some (digitVal a, []) else none
  | [] => none

/-- The stdLongYear field 2006: exactly four digits. -/
def getnum4 : List Char → Option (Nat × List Char)
  | a :: b :: c :: d :: rest =>
    if a.isDigit ∧ b.isDigit ∧ c.isDigit ∧ d.isDigit then
      some (1000 * digitVal a + 100 * digitVal b + 10 * digitVal c + digitVal d, rest)
    else none
  | _ => none

/-- Consume one literal layout character. -/
def lit (c : Char) : List Char → Option (List Char)
  | x :: rest => if x = c then some rest else none
  | [] => none

/-- Base-ten value of a digit sequence. -/
def digitsVal (ds : List Char) : Nat :=
  ds.foldl (fun a c => 10 * a + digitVal c) 0

/-- The fractional-second special case of Go time.Parse: right after
the seconds field, a period or comma followed by a digit consumes every
following digit even though neither layout has a fractional field; the
first nine digits become nanoseconds, scaled up when fewer are given,
further digits being consumed but discarded. -/
def parseFracSecond (cs : List Char) : Nat × List Char :=
  match cs with
  | c :: d :: _ =>
    if (c = '.' ∨ c = ',') ∧ d.isDigit then
      let ds := (cs.drop 1).takeWhile Char.isDigit
      let rest := (cs.drop 1).dropWhile Char.isDigit
      (digitsVal (ds.take 9) * 10 ^ (9 - min ds.length 9), rest)
    else (0, cs)
  | _ => (0, cs)

/-- Gregorian leap-year rule used by Go package time. -/
def isLeapYear (y : Nat) : Bool :=
  (y % 4 == 0 && y % 100 != 0) || y % 400 == 0

/-- Length of a month, as Go daysIn. -/
def daysInMonth (y m : Nat) : Nat :=
  match m with
  | 1 => 31
  | 2 => if isLeapYear y then 29 else 28
  | 3 => 31
  | 4 => 30
  | 5 => 31
  | 6 => 30
  | 7 => 31
  | 8 => 31
  | 9 => 30
  | 10 => 31
  | 11 => 30
  | 12 => 31
  | _ => 0

/-- Days from the Unix epoch to the given civil date (proleptic
Gregorian), the arithmetic Go package time performs when assembling a
parsed date. -/
def daysFromCivil (y m d : Nat) : Int :=
  let y1 : Int := if m ≤ 2 then (y : Int) - 1 else (y : Int)
  let era : Int := Int.fdiv y1 400
  let yoe : Int := y1 - era * 400
  let mp : Int := if m > 2 then (m : Int) - 3 else (m : Int) + 9
  let doy : Int := Int.fdiv (153 * mp + 2) 5 + (d : Int) - 1
  let doe : Int := yoe * 365 + Int.fdiv yoe 4 - Int.fdiv yoe 100 + doy
  era * 146097 + doe - 719468

/-- The 2006-01-02T15:04:05 portion common to both accepted layouts,
consumed the way Go time.Parse walks the layout: four-digit year,
literal dashes, two-digit month and day, literal T, one-or-two-digit
hour, literal colons, two-digit minute and second, with the field
ranges Go enforces (month 1-12, day within the month, hour below 24,
minute and second below 60), followed by the fractional-second special
case.  Yields the instant in nanoseconds at UTC civil time together
with the unconsumed input. -/
def parseDateTimePrefix (cs : List Char) : Option (Int × List Char) := do
  let (year, r1) ← getnum4 cs
  let r2 ← lit '-' r1
  let (month, r3) ← getnum2 r2
  let r4 ← lit '-' r3
  let (day, r5) ← getnum2 r4
  let r6 ← lit 'T' r5
  let (hour, r7) ← getnum1or2 r6
  let r8 ← lit ':' r7
  let (minute, r9) ← getnum2 r8
  let r10 ← lit ':' r9
  let (second, r11) ← getnum2 r10
  if 1 ≤ month ∧ month ≤ 12 ∧ 1 ≤ day ∧ day ≤ daysInMonth year month ∧
      hour ≤ 23 ∧ minute ≤ 59 ∧ second ≤ 59 then
    let fr := parseFracSecond r11
    some ((daysFromCivil year month day * 86400 +
      ((hour * 3600 + minute * 60 + second : Nat) : Int)) * nsPerSecond +
      (fr.1 : Int), fr.2)
  else none

/-- Layout string of the first Parse attempt in asTimeEntry (main.go
line 920); the trailing Z of this layout is a literal character, so only
strings ending in Z match it. -/
def layoutUTC : String := "2006-01-02T15:04:05Z"

/-- Layout string of the second Parse attempt (main.go line 922). -/
def layoutOffset : String := "2006-01-02T15:04:05-07:00"

/-- Parse against the first layout: the date-time prefix, a literal Z
and no remaining input.  The trailing Z of this layout is a literal
character (it is not one of the Z-prefixed zone fields), so only
strings ending in Z match. -/
def parseLayoutZ (s : String) : Option Time := do
  let (t, rest) ← parseDateTimePrefix s.data
  let r ← lit 'Z' rest
  if r = [] then some t else none

/-- Parse against the second layout: the date-time prefix followed by
the stdNumColonTZ zone field, which demands a sign character, two
offset-hour digits, a colon and two offset-minute digits, accepts no Z
form, range-checks nothing (Go does not for numeric zones), and must
exhaust the input.  The instant is the civil time minus the signed
offset. -/
def parseLayoutOffset (s : String) : Option Time := do
  let (t, rest) ← parseDateTimePrefix s.data
  match rest with
  | sgn :: h1 :: h2 :: ':' :: m1 :: m2 :: r =>
    if h1.isDigit ∧ h2.isDigit ∧ m1.isDigit ∧ m2.isDigit ∧ r = [] then
      let off : Int :=
        (((10 * digitVal h1 + digitVal h2) * 60 +
          (10 * digitVal m1 + digitVal m2)) * 60 : Nat)
      if sgn = '+' then some (t - off * nsPerSecond)
      else if sgn = '-' then some (t + off * nsPerSecond)
      else none
    else none
  | _ => none

/-- Error value of a failed Go time.Parse call: it names the layout and
the offending input string. -/
structure ParseError where
  layout : String
  value : String
  deriving DecidableEq, Repr

/-- The parseTime closure of asTimeEntry (main.go lines 919-925): try the
UTC layout, on failure try the offset layout, and return the error of
the second attempt when both fail. -/
def parseTime (s : String) : Except ParseError Time :=
  match parseLayoutZ s with
  | some t => .ok t
  | none =>
    match parseLayoutOffset s with
    | some t => .ok t
    | none => .error { layout := layoutOffset, value := s }

/-- tempTimeEntry (main.go lines 909-914): the phase-one decode of a
TimeEntry payload.  Its own start and stop string fields shadow the
identically-tagged pointer fields of the embedded entry during JSON
decoding, so after a decode the embedded Start and Stop are nil. -/
structure tempTimeEntry where
  embeddedTimeEntry : TimeEntry
  Stop : String
  Start : String
  deriving DecidableEq, Repr

/-- asTimeEntry (main.go lines 916-946): starting from the embedded
entry, parse the start string when non-empty (propagating a parse
failure), then the stop string when non-empty. -/
def tempTimeEntry.asTimeEntry (t : tempTimeEntry) : Except ParseError TimeEntry :=
  let afterStart : Except ParseError TimeEntry :=
    if t.Start = "" then .ok t.embeddedTimeEntry
    else
      match parseTime t.Start with
      | .ok start => .ok { t.embeddedTimeEntry with Start := some start }
      | .error e => .error e
  match afterStart with
  | .error e => .error e
  | .ok entry =>
    if t.Stop = "" then .ok entry
    else
      match parseTime t.Stop with
      | .ok stop => .ok { entry with Stop := some stop }
      | .error e => .error e

/-- timeEntryCreate (main.go lines 291-301), the creation payload posted
to the time-entries resource. -/
structure timeEntryCreate where
  Billable : Bool := false
  Description : String := ""
  Duration : Int := 0
  ProjectID : Option Int := none
  TaskID : Option Int := none
  Start : Option Time := none
  Stop : Option Time := none
  Tags : List String := []
  WorkspaceId : Int := 0
  deriving DecidableEq, Repr

/-- withMetadataFromTimeEntry (main.go lines 314-321). -/
def timeEntryCreate.withMetadataFromTimeEntry (t : timeEntryCreate)
    (timeEntry : TimeEntry) : timeEntryCreate :=
  { t with ProjectID := timeEntry.Pid,
           TaskID := timeEntry.Tid,
           Tags := timeEntry.Tags,
           Billable := timeEntry.Billable }

/-- newStartEntryRequestData (main.go lines 323-331); the current wall
clock is passed in explicitly. -/
def newStartEntryRequestData (now : Time) (description : String)
    (workspaceId : Int) : timeEntryCreate :=
  { Duration := -1,
    Description := description,
    Start := some now,
    WorkspaceId := workspaceId }

/-- Requests a session operation issues against the HTTP transport. -/
inductive Req where
  | post (url : String) (payload : timeEntryCreate)
  | del (url : String)
  deriving DecidableEq, Repr

/-- Oracle for everything outside the library: the wall clock, the local
time zone (modelled as a fixed offset in seconds east of UTC), the raw
transport responses, and the JSON unmarshaler for time-entry response
bodies.  Each response is a body paired with the Go error value. -/
structure World where
  now : Time
  loc : Int
  postTimeEntry : String → timeEntryCreate → String × Option String
  deleteResponse : String → String × Option String
  decodeTimeEntry : String → Except String TimeEntry

/-- Number of the local calendar day an instant falls on: floor of the
zone-shifted Unix seconds by 86400. -/
def localDay (loc : Int) (t : Time) : Int :=
  Int.fdiv (unixSeconds t + loc) 86400

/-- Civil date of a day number counted from the Unix epoch, the inverse
of daysFromCivil. -/
def civilFromDays (z0 : Int) : Int × Int × Int :=
  let z := z0 + 719468
  let era := Int.fdiv z 146097
  let doe := z - era * 146097
  let yoe := Int.fdiv (doe - Int.fdiv doe 1460 + Int.fdiv doe 36524 - Int.fdiv doe 146096) 365
  let y := yoe + era * 400
  let doy := doe - (365 * yoe + Int.fdiv yoe 4 - Int.fdiv yoe 100)
  let mp := Int.fdiv (5 * doy + 2) 153
  let d := doy - Int.fdiv (153 * mp + 2) 5 + 1
  let m := mp + (if mp < 10 then 3 else -9)
  (y + (if m ≤ 2 then 1 else 0), m, d)

/-- Left-pad a nonnegative number to two digits, as the 01 and 02 layout
fields print. -/
def pad2 (n : Int) : String :=
  if n < 10 then "0" ++ toString n else toString n

/-- Left-pad a nonnegative number to four digits, as the 2006 layout
field prints years. -/
def pad4 (n : Int) : String :=
  if n < 10 then "000" ++ toString n
  else if n < 100 then "00" ++ toString n
  else if n < 1000 then "0" ++ toString n
  else toString n

/-- Format of an instant under the layout 2006-01-02 in the local zone,
as used by the same-day test of ContinueTimeEntry (main.go line 410). -/
def formatDate (loc : Int) (t : Time) : String :=
  match civilFromDays (localDay loc t) with
  | (y, m, d) => pad4 y ++ "-" ++ pad2 m ++ "-" ++ pad2 d

/-- handleTimeEntryResponse (main.go lines 948-961): any request or
unmarshal error yields the zero TimeEntry alongside the error. -/
def handleTimeEntryResponse (dec : String → Except String TimeEntry)
    (data : String) (err : Option String) : TimeEntry × Option String :=
  match err with
  | some e => (zeroTimeEntry, some e)
  | none =>
    match dec data with
    | .ok entry => (entry, none)
    | .error e => (zeroTimeEntry, some e)

/-- startTimeEntry (main.go lines 335-339): post the payload to the
workspace-scoped time-entries URL and run the response handler.  The
second component is the request log. -/
def startTimeEntryOp (w : World) (t : timeEntryCreate) :
    (TimeEntry × Option String) × List Req :=
  let url := generateResourceURL .timeEntries t.WorkspaceId
  let resp := w.postTimeEntry url t
  (handleTimeEntryResponse w.decodeTimeEntry resp.1 resp.2, [Req.post url t])

/-- DeleteTimeEntry (main.go lines 477-480): DELETE on the id-scoped
time-entries URL. -/
def deleteTimeEntryOp (w : World) (timer : TimeEntry) :
    (String × Option String) × List Req :=
  let url := generateResourceURLWithID .timeEntries timer.Wid timer.ID
  let resp := w.deleteResponse url
  (resp, [Req.del url])

/-- The creation payload UnstopTimeEntry builds (main.go lines 428-430):
fresh start-entry data, metadata copied from the source entry, and the
start overridden with the source start. -/
def unstopPayload (w : World) (timer : TimeEntry) : timeEntryCreate :=
  { (newStartEntryRequestData w.now timer.Description timer.Wid).withMetadataFromTimeEntry
      timer with Start := timer.Start }

/-- UnstopTimeEntry (main.go lines 423-438).  The error of the creation
step is bound and then unconditionally overwritten by the deletion
result; a deletion error is wrapped as the partial-failure error.  The
returned entry is always the creation response. -/
def UnstopTimeEntry (w : World) (timer : TimeEntry) :
    (TimeEntry × Option String) × List Req :=
  let startRes := startTimeEntryOp w (unstopPayload w timer)
  let newEntry := startRes.1.1
  let delRes := deleteTimeEntryOp w timer
  let err : Option String :=
    match delRes.1.2 with
    | some derr => some ("old entry not deleted: " ++ derr)
    | none => none
  ((newEntry, err), startRes.2 ++ delRes.2)

/-- The creation payload of the new-entry branch of ContinueTimeEntry
(main.go lines 416-417). -/
def continuePayload (w : World) (timer : TimeEntry) : timeEntryCreate :=
  (newStartEntryRequestData w.now timer.Description timer.Wid).withMetadataFromTimeEntry timer

/-- ContinueTimeEntry (main.go lines 407-421).  With duronly set, the
source start pointer is dereferenced for the same-day test (a nil start
panics); when the source entry started on the current local calendar day
the operation delegates to UnstopTimeEntry, otherwise it starts a new
entry with the copied metadata. -/
def ContinueTimeEntry (w : World) (timer : TimeEntry) (duronly : Bool) :
    Exec ((TimeEntry × Option String) × List Req) :=
  if duronly then
    match timer.Start with
    | none => .nilDeref
    | some st =>
      if formatDate w.loc w.now = formatDate w.loc st then
        .ok (UnstopTimeEntry w timer)
      else
        .ok (startTimeEntryOp w (continuePayload w timer))
  else
    .ok (startTimeEntryOp w (continuePayload w timer))

/-- C4: for every time entry, IsRunning returns true exactly when the
duration is strictly negative, and replacing the stop field by any value
(present or absent) does not change the result. -/
theorem isRunning_iff_negative_duration (e : TimeEntry) :
    (e.IsRunning = true ↔ e.Duration < 0) ∧
    ∀ stp : Option Time, TimeEntry.IsRunning { e with Stop := stp } = e.IsRunning := by
  refine ⟨?_, fun stp => rfl⟩
  simp [TimeEntry.IsRunning]

/-- C10: the workspace-scoped URL builder produces
/workspaces/{wid}/{resource} for each of the four resource kinds, the
id variant appends /{id}, the user-scoped builder produces
/me/{resource}, ids (negative or zero included) pass through as decimal
text, and the (time entries, wid 7, id 42) scenario yields the expected
paths. -/
theorem resource_url_builder_spec :
    (∀ wid : Int,
      generateResourceURL .clients wid = "/workspaces/" ++ toString wid ++ "/" ++ "clients" ∧
      generateResourceURL .projects wid = "/workspaces/" ++ toString wid ++ "/" ++ "projects" ∧
      generateResourceURL .tags wid = "/workspaces/" ++ toString wid ++ "/" ++ "tags" ∧
      generateResourceURL .timeEntries wid =
        "/workspaces/" ++ toString wid ++ "/" ++ "time_entries") ∧
    (∀ (r : resourceType) (wid id : Int),
      generateResourceURLWithID r wid id = generateResourceURL r wid ++ "/" ++ toString id) ∧
    (generateUserResourceURL .clients = "/me/clients" ∧
      generateUserResourceURL .projects = "/me/projects" ∧
      generateUserResourceURL .tags = "/me/tags" ∧
      generateUserResourceURL .timeEntries = "/me/time_entries") ∧
    generateResourceURL .timeEntries 7 = "/workspaces/7/time_entries" ∧
    generateResourceURLWithID .timeEntries 7 42 = "/workspaces/7/time_entries/42" ∧
    generateResourceURL .timeEntries (-3) = "/workspaces/-3/time_entries" ∧
    generateResourceURLWithID .clients 0 0 = "/workspaces/0/clients/0" :=
  ⟨fun _ => ⟨rfl, rfl, rfl, rfl⟩, fun _ _ _ => rfl, ⟨rfl, rfl, rfl, rfl⟩,
    by decide, by decide, by decide, by decide⟩

/-- C7: on a running entry (negative duration), SetDuration and
SetStopTime both return the precondition error and hand back the entry
with every field unchanged. -/
theorem set_mutations_on_running_entry_fail (e : TimeEntry) (d : Int) (stp : Time)
    (h : e.Duration < 0) :
    e.SetDuration d = .ok (e, some "TimeEntry must be stopped") ∧
    e.SetStopTime stp = .ok (e, some "TimeEntry must be stopped") := by
  constructor <;>
    simp [TimeEntry.SetDuration, TimeEntry.SetStopTime, TimeEntry.IsRunning, h]

theorem set_mutations_on_running_entry_fail_witness :
    TimeEntry.SetDuration { Duration := -1 } 5 =
      .ok ({ Duration := -1 }, some "TimeEntry must be stopped") ∧
    TimeEntry.SetStopTime { Duration := -1 } 0 =
      .ok ({ Duration := -1 }, some "TimeEntry must be stopped") :=
  set_mutations_on_running_entry_fail { Duration := -1 } 5 0 (by decide)

/-- C8: on a stopped entry, SetDuration dereferences the start pointer
and SetStartTime with updateEnd false dereferences the stop pointer with
no nil check, so with the respective pointer absent the call ends in a
nil-pointer fault instead of an error return. -/
theorem set_mutations_nil_pointer_fault (e : TimeEntry) (d : Int) (start : Time)
    (hstopped : 0 ≤ e.Duration) :
    (e.Start = none → e.SetDuration d = .nilDeref) ∧
    (e.Stop = none → e.SetStartTime start false = .nilDeref) := by
  have hrun : e.IsRunning = false := by
    simp [TimeEntry.IsRunning]
    omega
  constructor
  · intro h
    simp [TimeEntry.SetDuration, hrun, h]
  · intro h
    simp [TimeEntry.SetStartTime, TimeEntry.IsRunning, h]
    omega

theorem set_mutations_nil_pointer_fault_witness :
    (TimeEntry.SetDuration { Duration := 3 } 5 = .nilDeref) ∧
    (TimeEntry.SetStartTime { Duration := 3 } 0 false = .nilDeref) := by
  have h := set_mutations_nil_pointer_fault { Duration := 3 } 5 0 (by decide)
  exact ⟨h.1 rfl, h.2 rfl⟩

/-- C6: on a stopped entry, SetStartTime with updateEnd true sets the
start and recomputes the stop as the new start plus the stored duration
in seconds; with updateEnd false it sets the start and recomputes the
duration as the Unix-second difference between the existing stop and the
new start. -/
theorem set_start_time_recomputation (e : TimeEntry) (start : Time)
    (hstopped : 0 ≤ e.Duration) :
    e.SetStartTime start true =
      .ok { e with Start := some start,
                   Stop := some (start + e.Duration * nsPerSecond) } ∧
    (∀ stp : Time, e.Stop = some stp →
      e.SetStartTime start false =
        .ok { e with Start := some start,
                     Duration := unixSeconds stp - unixSeconds start }) := by
  have hrun : ¬ ((e.Duration : Int) < 0) := by omega
  constructor
  · simp [TimeEntry.SetStartTime, TimeEntry.IsRunning, hrun]
  · intro stp h
    simp [TimeEntry.SetStartTime, TimeEntry.IsRunning, hrun, h]

theorem set_start_time_recomputation_witness :
    TimeEntry.SetStartTime { Duration := 60, Stop := some 100000000000 } 5000000000 true =
      .ok { Duration := 60, Stop := some 65000000000, Start := some 5000000000 } ∧
    TimeEntry.SetStartTime { Duration := 60, Stop := some 100000000000 } 5000000000 false =
      .ok { Duration := 95, Stop := some 100000000000, Start := some 5000000000 } := by
  have h := set_start_time_recomputation
    { Duration := 60, Stop := some 100000000000 } 5000000000 (by decide)
  exact ⟨h.1, h.2 100000000000 rfl⟩

lemma indexOfTagAux_of_not_mem (tag : String) (ts : List String) (i : Int)
    (h : tag ∉ ts) : indexOfTagAux tag ts i = -1 := by
  induction ts generalizing i with
  | nil => rfl
  | cons t ts ih =>
    have hne : ¬ t = tag := fun e => h (e ▸ List.mem_cons_self t ts)
    simp only [indexOfTagAux, if_neg hne]
    exact ih _ (fun m => h (List.mem_cons_of_mem _ m))

lemma indexOfTagAux_of_mem (tag : String) (ts : List String) (h : tag ∈ ts) :
    ∀ i : Int, ∃ l1 l2, ts = l1 ++ tag :: l2 ∧ tag ∉ l1 ∧
      indexOfTagAux tag ts i = i + l1.length := by
  induction ts with
  | nil => cases h
  | cons t ts ih =>
    intro i
    by_cases e : t = tag
    · refine ⟨[], ts, by rw [e]; rfl, by simp, ?_⟩
      simp [indexOfTagAux, e]
    · have hm : tag ∈ ts := by
        rcases List.mem_cons.mp h with h1 | h2
        · exact absurd h1.symm e
        · exact h2
      obtain ⟨l1, l2, hts, hnm, hidx⟩ := ih hm (i + 1)
      refine ⟨t :: l1, l2, by rw [hts]; rfl, ?_, ?_⟩
      · simp only [List.mem_cons, not_or]
        exact ⟨fun x => e x.symm, hnm⟩
      · simp only [indexOfTagAux, if_neg e, hidx, List.length_cons]
        push_cast
        omega

/-- C9: RemoveTag with a tag absent from the tag sequence returns the
entry unchanged; with a present tag it removes exactly the first
occurrence and keeps the remaining tags in their relative order. -/
theorem remove_tag_spec (e : TimeEntry) (tag : String) :
    (tag ∉ e.Tags → e.RemoveTag tag = e) ∧
    (tag ∈ e.Tags → ∃ l1 l2, e.Tags = l1 ++ tag :: l2 ∧ tag ∉ l1 ∧
      (e.RemoveTag tag).Tags = l1 ++ l2) := by
  constructor
  · intro h
    simp [TimeEntry.RemoveTag, indexOfTag, indexOfTagAux_of_not_mem tag e.Tags 0 h]
  · intro h
    obtain ⟨l1, l2, hts, hnm, hidx⟩ := indexOfTagAux_of_mem tag e.Tags h 0
    rw [zero_add] at hidx
    refine ⟨l1, l2, hts, hnm, ?_⟩
    have hne : indexOfTag tag e.Tags ≠ -1 := by
      rw [indexOfTag, hidx]
      omega
    have htn : (indexOfTag tag e.Tags).toNat = l1.length := by
      rw [indexOfTag, hidx]
      omega
    simp only [TimeEntry.RemoveTag, if_pos hne, htn]
    have hdrop : (l1 ++ tag :: l2).drop (l1.length + 1) = l2 := by
      have h2 : l1 ++ tag :: l2 = (l1 ++ [tag]) ++ l2 := by simp
      have h3 : l1.length + 1 = (l1 ++ [tag]).length := by simp
      rw [h2, h3, List.drop_left]
    rw [hts, List.take_left, hdrop]

theorem remove_tag_spec_witness :
    (TimeEntry.RemoveTag { Tags := ["a", "b", "c", "b"] } "z" =
      { Tags := ["a", "b", "c", "b"] }) ∧
    (∃ l1 l2, (["a", "b", "c", "b"] : List String) = l1 ++ "b" :: l2 ∧ "b" ∉ l1 ∧
      (TimeEntry.RemoveTag { Tags := ["a", "b", "c", "b"] } "b").Tags = l1 ++ l2) := by
  have h1 := remove_tag_spec { Tags := ["a", "b", "c", "b"] } "z"
  have h2 := remove_tag_spec { Tags := ["a", "b", "c", "b"] } "b"
  exact ⟨h1.1 (by decide), h2.2 (by decide)⟩

/-- C5: the timestamp decoder tries the UTC layout first and on failure
the explicit-offset layout; when both fail it produces a parse error
naming the offending string (never a default instant), failure of a
non-empty start string propagates out of asTimeEntry as that error, and
an absent (empty) start and stop leave the decoded fields exactly as in
the embedded entry, whose shadowed pointer fields are nil. -/
theorem timestamp_decoding_spec :
    (∀ s t, parseLayoutZ s = some t → parseTime s = .ok t) ∧
    (∀ s t, parseLayoutZ s = none → parseLayoutOffset s = some t →
      parseTime s = .ok t) ∧
    (∀ s, parseLayoutZ s = none → parseLayoutOffset s = none →
      parseTime s = .error { layout := layoutOffset, value := s }) ∧
    (∀ te : tempTimeEntry, te.Start ≠ "" → ∀ e, parseTime te.Start = .error e →
      te.asTimeEntry = .error e) ∧
    (∀ te : tempTimeEntry, te.Start = "" → te.Stop = "" →
      te.asTimeEntry = .ok te.embeddedTimeEntry) := by
  refine ⟨?_, ?_, ?_, ?_, ?_⟩
  · intro s t h
    simp [parseTime, h]
  · intro s t h1 h2
    simp [parseTime, h1, h2]
  · intro s h1 h2
    simp [parseTime, h1, h2]
  · intro te h1 e h2
    simp [tempTimeEntry.asTimeEntry, h1, h2]
  · intro te h1 h2
    simp [tempTimeEntry.asTimeEntry, h1, h2]

theorem timestamp_decoding_spec_witness :
    parseTime "1970-01-01T00:00:01Z" = .ok 1000000000 ∧
    parseTime "2023-01-02T15:04:05.123Z" = .ok 1672671845123000000 ∧
    parseTime "2023-01-02T5:04:05Z" = .ok 1672635845000000000 ∧
    parseTime "1970-01-01T00:00:00.5+01:00" = .ok (-3599500000000) ∧
    parseTime "bogus" = .error { layout := layoutOffset, value := "bogus" } ∧
    tempTimeEntry.asTimeEntry { embeddedTimeEntry := {}, Stop := "", Start := "bogus" } =
      .error { layout := layoutOffset, value := "bogus" } ∧
    tempTimeEntry.asTimeEntry { embeddedTimeEntry := {}, Stop := "", Start := "" } =
      .ok {} := by
  have h := timestamp_decoding_spec
  exact ⟨h.1 _ _ rfl, h.1 _ _ rfl, h.1 _ _ rfl, h.2.1 _ _ rfl rfl,
    h.2.2.1 _ rfl rfl,
    h.2.2.2.1 { embeddedTimeEntry := {}, Stop := "", Start := "bogus" }
      (by decide) _ (h.2.2.1 _ rfl rfl),
    h.2.2.2.2 { embeddedTimeEntry := {}, Stop := "", Start := "" } rfl rfl⟩

/-- C2: UnstopTimeEntry posts a creation payload carrying the source
start time, description, project, task, tags and billable flag with
duration -1, then issues the deletion of the source entry; when the
deletion fails, the creation response entry is still returned together
with the wrapped partial-failure error. -/
theorem unstop_partial_failure (w : World) (timer : TimeEntry) (derr : String)
    (h : (w.deleteResponse
      (generateResourceURLWithID .timeEntries timer.Wid timer.ID)).2 = some derr) :
    UnstopTimeEntry w timer =
      (((startTimeEntryOp w (unstopPayload w timer)).1.1,
        some ("old entry not deleted: " ++ derr)),
       [Req.post (generateResourceURL .timeEntries timer.Wid) (unstopPayload w timer),
        Req.del (generateResourceURLWithID .timeEntries timer.Wid timer.ID)]) ∧
    (unstopPayload w timer).Start = timer.Start ∧
    (unstopPayload w timer).Description = timer.Description ∧
    (unstopPayload w timer).ProjectID = timer.Pid ∧
    (unstopPayload w timer).TaskID = timer.Tid ∧
    (unstopPayload w timer).Tags = timer.Tags ∧
    (unstopPayload w timer).Billable = timer.Billable ∧
    (unstopPayload w timer).Duration = -1 := by
  refine ⟨?_, rfl, rfl, rfl, rfl, rfl, rfl, rfl⟩
  simp [UnstopTimeEntry, startTimeEntryOp, deleteTimeEntryOp, h,
    unstopPayload, continuePayload, newStartEntryRequestData,
    timeEntryCreate.withMetadataFromTimeEntry]

/-- C3: the error UnstopTimeEntry returns is a function of the deletion
result alone, the creation error being overwritten; in particular when
the creation fails and the deletion succeeds, the caller receives the
zero TimeEntry with no error while the deletion of the original entry
was issued and succeeded. -/
theorem unstop_error_overwrite (w : World) (timer : TimeEntry) (cerr : String)
    (hpost : (w.postTimeEntry (generateResourceURL .timeEntries timer.Wid)
      (unstopPayload w timer)).2 = some cerr)
    (hdel : (w.deleteResponse
      (generateResourceURLWithID .timeEntries timer.Wid timer.ID)).2 = none) :
    (UnstopTimeEntry w timer =
      ((zeroTimeEntry, none),
       [Req.post (generateResourceURL .timeEntries timer.Wid) (unstopPayload w timer),
        Req.del (generateResourceURLWithID .timeEntries timer.Wid timer.ID)])) ∧
    (∀ (w2 : World) (t2 : TimeEntry), (UnstopTimeEntry w2 t2).1.2 =
      Option.map (fun d => "old entry not deleted: " ++ d)
        ((w2.deleteResponse
          (generateResourceURLWithID .timeEntries t2.Wid t2.ID)).2)) := by
  constructor
  · simp only [UnstopTimeEntry, startTimeEntryOp, deleteTimeEntryOp,
      handleTimeEntryResponse, unstopPayload, continuePayload,
      newStartEntryRequestData, timeEntryCreate.withMetadataFromTimeEntry] at hpost ⊢
    rw [hpost, hdel]
    rfl
  · intro w2 t2
    simp only [UnstopTimeEntry, deleteTimeEntryOp]
    cases (w2.deleteResponse
      (generateResourceURLWithID .timeEntries t2.Wid t2.ID)).2 <;> rfl

/-- A concrete stopped source entry started at the epoch instant. -/
def contTimer : TimeEntry :=
  { Wid := 7, ID := 1, Pid := some 3, Description := "writing spec",
    Start := some 0, Tags := ["a"], Duration := 120, Billable := true }

/-- The entry a concrete server response decodes to: a fresh running
entry with a new id. -/
def contRespEntry : TimeEntry :=
  { ID := 999, Wid := 7, Duration := -1, Start := some 0 }

/-- A concrete oracle: one hour past the epoch, UTC local zone, every
transport call succeeding and every creation response decoding to
contRespEntry. -/
def contWorld : World :=
  { now := 3600 * 1000000000,
    loc := 0,
    postTimeEntry := fun _ _ => ("resp", none),
    deleteResponse := fun _ => ("", none),
    decodeTimeEntry := fun _ => .ok contRespEntry }

/-- A concrete oracle whose deletion call fails. -/
def unstopFailWorld : World :=
  { now := 5000000000,
    loc := 0,
    postTimeEntry := fun _ _ => ("resp", none),
    deleteResponse := fun _ => ("", some "410 Gone"),
    decodeTimeEntry := fun _ => .ok contRespEntry }

/-- A concrete oracle whose creation call fails and whose deletion call
succeeds. -/
def unstopCreateFailWorld : World :=
  { now := 5000000000,
    loc := 0,
    postTimeEntry := fun _ _ => ("error body", some "500 Internal Server Error"),
    deleteResponse := fun _ => ("", none),
    decodeTimeEntry := fun _ => .ok contRespEntry }

theorem unstop_partial_failure_witness :
    (UnstopTimeEntry unstopFailWorld contTimer).1.2 =
      some "old entry not deleted: 410 Gone" := by
  rw [(unstop_partial_failure unstopFailWorld contTimer "410 Gone" rfl).1]
  rfl

theorem unstop_error_overwrite_witness :
    UnstopTimeEntry unstopCreateFailWorld contTimer =
      ((zeroTimeEntry, none),
       [Req.post (generateResourceURL .timeEntries contTimer.Wid)
          (unstopPayload unstopCreateFailWorld contTimer),
        Req.del (generateResourceURLWithID .timeEntries contTimer.Wid contTimer.ID)]) :=
  (unstop_error_overwrite unstopCreateFailWorld contTimer
    "500 Internal Server Error" rfl rfl).1

/-- C1 counterexample: continuing the entry with id 1 (started earlier
the same local day) with duronly set issues a creation request and
returns the server-assigned entry whose id is 999, not 1: the existing
entry is not re-opened in place. -/
theorem continue_duronly_same_day_counterexample :
    contTimer.ID = 1 ∧
    ContinueTimeEntry contWorld contTimer true =
      .ok ((contRespEntry, none),
        [Req.post "/workspaces/7/time_entries" (unstopPayload contWorld contTimer),
         Req.del "/workspaces/7/time_entries/1"]) ∧
    contRespEntry.ID = 999 := by
  refine ⟨rfl, ?_, rfl⟩
  decide

/-- C1 (amended): with duronly set and the source start on the current
local calendar day, ContinueTimeEntry delegates to UnstopTimeEntry,
which issues a creation request for a copy and a deletion of the source
entry and returns the creation response; in every other case it starts
a brand-new running entry copying description, project, task, tags and
billable flag from the source. -/
theorem continue_time_entry_branches (w : World) (timer : TimeEntry) (st : Time)
    (duronly : Bool) (hstart : timer.Start = some st) :
    (duronly = true → formatDate w.loc w.now = formatDate w.loc st →
      ContinueTimeEntry w timer duronly = .ok (UnstopTimeEntry w timer)) ∧
    (duronly = true → formatDate w.loc w.now ≠ formatDate w.loc st →
      ContinueTimeEntry w timer duronly =
        .ok (startTimeEntryOp w (continuePayload w timer))) ∧
    (duronly = false →
      ContinueTimeEntry w timer duronly =
        .ok (startTimeEntryOp w (continuePayload w timer))) ∧
    (UnstopTimeEntry w timer).2 =
      [Req.post (generateResourceURL .timeEntries timer.Wid) (unstopPayload w timer),
       Req.del (generateResourceURLWithID .timeEntries timer.Wid timer.ID)] ∧
    (continuePayload w timer).Description = timer.Description ∧
    (continuePayload w timer).ProjectID = timer.Pid ∧
    (continuePayload w timer).TaskID = timer.Tid ∧
    (continuePayload w timer).Tags = timer.Tags ∧
    (continuePayload w timer).Billable = timer.Billable ∧
    (continuePayload w timer).Duration = -1 ∧
    (continuePayload w timer).Start = some w.now := by
  refine ⟨?_, ?_, ?_, ?_, rfl, rfl, rfl, rfl, rfl, rfl, rfl⟩
  · intro hd heq
    simp [ContinueTimeEntry, hd, hstart, heq]
  · intro hd hne
    simp [ContinueTimeEntry, hd, hstart, hne]
  · intro hd
    simp [ContinueTimeEntry, hd]
  · simp [UnstopTimeEntry, startTimeEntryOp, deleteTimeEntryOp,
      unstopPayload, continuePayload, newStartEntryRequestData,
      timeEntryCreate.withMetadataFromTimeEntry]

theorem continue_time_entry_branches_witness :
    ContinueTimeEntry contWorld contTimer true =
      .ok (UnstopTimeEntry contWorld contTimer) :=
  (continue_time_entry_branches contWorld contTimer 0 true rfl).1 rfl rfl

end Toggl
